import Mathlib

/-!
Verification development for the vfox plugin lifecycle engine
(`src/plugins/vfox_plugin.rs`): source resolution (`vfox_to_url`,
`get_repo_url`), the install/update/uninstall state machine, the
ensure-installed guard, installed-state queries, and the plugin catalog
(`VfoxPlugin::list`).

External collaborators (the git client, the `url` crate, the filesystem,
the progress sink) are modelled at their interface boundary: their
outcomes are inputs in an `Env` record, and the calls a lifecycle
operation makes are recorded as an event trace.
-/

namespace Mise

/-- Outcome of a Rust computation in this model: a value, a recoverable
`eyre` error carrying its message, a panic (an `unwrap` on `None`), or
divergence (ran out of fuel, modelling non-terminating recursion). -/
inductive Out (α : Type) where
  | ok : α → Out α
  | err : String → Out α
  | panicked : Out α
  | diverge : Out α
deriving DecidableEq, Repr

/-- Observable calls a lifecycle operation makes: progress-sink calls
(`set_message`, `finish_with_message`), warning logs, and the mutating
external calls (`remove_all`, `git clone`, `git update`/checkout). -/
inductive Ev where
  | setMessage : String → Ev
  | finishWithMessage : String → Ev
  | warn : String → Ev
  | removeAll : String → Ev
  | gitClone : String → Ev
  | gitUpdate : Option String → Ev
deriving DecidableEq, Repr

/-! ## String helpers mirroring the Rust string operations -/

/-- Rust `str::trim_start_matches("vfox-")` specialised to the concrete
pattern used at `vfox_to_url`: repeatedly strips a leading `"vfox-"`. -/
def trimVfoxChars : List Char → List Char
  | 'v' :: 'f' :: 'o' :: 'x' :: '-' :: rest => trimVfoxChars rest
  | s => s

def trim_start_matches_vfox (s : String) : String :=
  ⟨trimVfoxChars s.data⟩

/-- Rust `str::split_once(c)`: splits at the first occurrence of `c`,
returning the parts before and after it, or `none` if `c` is absent. -/
def splitOnceChars (c : Char) : List Char → Option (List Char × List Char)
  | [] => none
  | x :: xs =>
    if x = c then some ([], xs)
    else
      match splitOnceChars c xs with
      | some (a, b) => some (x :: a, b)
      | none => none

def split_once (c : Char) (s : String) : Option (String × String) :=
  match splitOnceChars c s.data with
  | some (a, b) => some (⟨a⟩, ⟨b⟩)
  | none => none

/-- The regex `^([^/]+)/([^/]+)$` of `vfox_to_url`: matches exactly when
the string is two non-empty slash-free segments around a single `/`,
capturing the two segments. -/
def shorthandCaps (s : String) : Option (String × String) :=
  match splitOnceChars '/' s.data with
  | some (u, r) =>
    if u.isEmpty || r.isEmpty || r.contains '/' then none else some (⟨u⟩, ⟨r⟩)
  | none => none

/-- The regex `^[/~]` used by `install` to reject local-path clone
targets. -/
def startsWithLocal (s : String) : Bool :=
  match s.data with
  | [] => false
  | c :: _ => c = '/' || c = '~'

/-! ## URL parsing (external `url` crate, at its interface boundary)

`Url::parse` succeeds exactly on absolute URLs, which must open with a
scheme: an ASCII letter followed by letters, digits, `+`, `-` or `.`,
then a `:`. The model validates that scheme and returns the string
unchanged (the crate's percent-encoding normalisation is not modelled;
no claim depends on it). A string with no scheme — in particular one
beginning with `/` or `~` — fails to parse. -/

def isSchemeChar (c : Char) : Bool :=
  c.isAlphanum || c = '+' || c = '-' || c = '.'

def schemeRest : List Char → Bool
  | [] => false
  | c :: rest => if c = ':' then true else isSchemeChar c && schemeRest rest

def hasSchemeChars : List Char → Bool
  | [] => false
  | c :: rest => c.isAlpha && schemeRest rest

def hasScheme (s : String) : Bool := hasSchemeChars s.data

def urlParse (s : String) : Except String String :=
  if hasScheme s then .ok s else .error ("relative URL without a base: " ++ s)

/-! ## Registry and `vfox_to_url` -/

/-- Modelled from the spec: the compiled-in table `registry::REGISTRY_VFOX`
is not under src/. Spec §3 gives the entry format `alias -> "kind:owner/repo"`
and §8 Scenario A together with the source comment (`// bun ->
version-fox/vfox-bun`) give the alias `bun`. -/
def REGISTRY_VFOX : List (String × String) :=
  [("bun", "vfox:version-fox/vfox-bun")]

/-- `IndexMap::get` on an alias table. -/
def regLookup (reg : List (String × String)) (k : String) : Option String :=
  (reg.find? (fun p => p.1 == k)).map (fun p => p.2)

/-- `vfox_to_url` (src/plugins/vfox_plugin.rs lines 255–268), parameterised
by the registry table and by fuel for its self-recursion (the Rust
recursion has no structural bound; fuel 0 marks divergence):
1. strip any `vfox-` prefix and look the name up in the registry; on a
   hit, split the target-spec at the first `:` (`unwrap` panics when `:`
   is absent) and recurse on the payload;
2. otherwise, an `owner/repo` shorthand becomes
   `https://github.com/owner/repo`, parsed as a URL;
3. otherwise the name itself is parsed as a URL; a parse failure is
   wrapped as `Invalid version: {name}`. -/
def vfox_to_url (reg : List (String × String)) : Nat → String → Out String
  | 0, _ => .diverge
  | Nat.succ fuel, name =>
    match regLookup reg (trim_start_matches_vfox name) with
    | some full =>
      match split_once ':' full with
      | some (_, payload) => vfox_to_url reg fuel payload
      | none => .panicked
    | none =>
      let res : Except String String :=
        match shorthandCaps name with
        | some (user, repo) => urlParse ("https://github.com/" ++ user ++ "/" ++ repo)
        | none => urlParse name
      match res with
      | .ok u => .ok u
      | .error e => .err ("Invalid version: " ++ name ++ ": " ++ e)

/-! ## Plugin environment and lifecycle operations -/

/-- Opaque plugins root (`dirs::PLUGINS`, an opaque path root per spec §6). -/
def PLUGINS_DIR : String := "/plugins"

/-- `VfoxPlugin::new` derives `plugin_path` as `dirs::PLUGINS.join(&name)`. -/
def pluginPath (name : String) : String := PLUGINS_DIR ++ "/" ++ name

/-- One plugin together with the behaviour of its external collaborators
(filesystem state at `plugin_path`, and the git client's answers), per the
interface boundary of spec §4.2/§6. `repoUrlField` is the `repo_url`
field of `VfoxPlugin` (always `None` via `new`). -/
structure Env where
  name : String
  /-- `plugin_path.exists()`, i.e. `is_installed`. -/
  existsPath : Bool
  /-- `plugin_path.is_symlink()`. -/
  isSymlink : Bool
  /-- `Git::is_repo()` at `plugin_path`. -/
  isRepo : Bool
  /-- `repo.get_remote_url()`. -/
  remoteUrl : Option String
  /-- the `repo_url` struct field. -/
  repoUrlField : Option String
  /-- outcome of `file::remove_all(plugin_path)`. -/
  removeAllRes : Except String Unit
  /-- outcome of `git.clone(url)` per url. -/
  cloneRes : String → Except String Unit
  /-- outcome of `git.update(gitref)` per ref. -/
  updateRes : Option String → Except String Unit
  /-- outcome of `git.current_sha_short()`. -/
  shaShort : Except String String
  /-- outcome of `git.current_abbrev_ref()`. -/
  abbrevRef : Except String String

namespace VfoxPlugin

/-- `VfoxPlugin::get_repo_url`: the configured remote, parsed as a URL,
when present; otherwise `vfox_to_url(&self.name)`. -/
def get_repo_url (e : Env) (fuel : Nat) : Out String :=
  match e.remoteUrl with
  | some url =>
    match urlParse url with
    | .ok u => .ok u
    | .error m => .err m
  | none => vfox_to_url REGISTRY_VFOX fuel e.name

/-- The trait method `get_remote_url`: `repo.get_remote_url().or(repo_url)`
(always `Ok`). -/
def get_remote_url (e : Env) : Option String :=
  match e.remoteUrl with
  | some u => some u
  | none => e.repoUrlField

/-- `Plugin::is_installed`: `plugin_path.exists()`. -/
def is_installed (e : Env) : Bool := e.existsPath

/-- `Plugin::current_sha_short` (lines 142–147): `Ok(None)` when not
installed, otherwise the repository's short sha wrapped in `Some`. -/
def current_sha_short (e : Env) : Except String (Option String) :=
  if !is_installed e then .ok none
  else e.shaShort.map some

/-- `Plugin::current_abbrev_ref` (lines 135–140): `Ok(None)` when not
installed, otherwise the repository's abbreviated ref wrapped in `Some`. -/
def current_abbrev_ref (e : Env) : Except String (Option String) :=
  if !is_installed e then .ok none
  else e.abbrevRef.map some

/-- `Plugin::uninstall` (lines 198–220): returns `Ok` at once when the
path does not exist; otherwise reports "uninstalling", and the `rmdir`
closure re-checks existence of the same (unchanged) path, reports
"removing …" and calls `remove_all`, wrapping a removal failure. -/
def uninstall (e : Env) : Except String Unit × List Ev :=
  if !is_installed e then (.ok (), [])
  else
    let evs0 := [Ev.setMessage "uninstalling"]
    if !e.existsPath then (.ok (), evs0)
    else
      let dir := pluginPath e.name
      let evs := evs0 ++ [Ev.setMessage ("removing " ++ dir), Ev.removeAll dir]
      match e.removeAllRes with
      | .ok _ => (.ok (), evs)
      | .error m => (.error ("Failed to remove directory " ++ dir ++ ": " ++ m), evs)

/-- `Plugin::update` (lines 170–196): warns and returns `Ok` when the path
is a symlink, or is not a git repository; otherwise reports "updating git
repo", runs `git.update(gitref)`, reads the short sha, and finishes with
`{repo_url}#{sha}`. -/
def update (e : Env) (gitref : Option String) : Except String Unit × List Ev :=
  if e.isSymlink then
    (.ok (), [Ev.warn ("plugin:" ++ e.name ++ " is a symlink, not updating")])
  else if !e.isRepo then
    (.ok (), [Ev.warn ("plugin:" ++ e.name ++ " is not a git repository, not updating")])
  else
    let evs := [Ev.setMessage "updating git repo", Ev.gitUpdate gitref]
    match e.updateRes gitref with
    | .error m => (.error m, evs)
    | .ok _ =>
      match e.shaShort with
      | .error m => (.error m, evs)
      | .ok sha =>
        let repoUrl := (get_remote_url e).getD ""
        (.ok (), evs ++ [Ev.finishWithMessage (repoUrl ++ "#" ++ sha)])

/-- Modelled from the spec: `Git::split_url_and_ref` lives in src/git.rs,
not under src/. Spec §6 gives `split(url_with_optional_fragment) ->
(url, optional_ref)` and §4.2 says a URL may encode a trailing `#ref`
fragment split into `(clone_url, optional_ref)`. -/
def split_url_and_ref (url : String) : String × Option String :=
  match split_once '#' url with
  | some (u, r) => (u, some r)
  | none => (url, none)

/-- The validation error raised by `install` for a local-path clone target. -/
def invalidRepoUrlMsg (repoUrl : String) : String :=
  "Invalid repository URL: " ++ repoUrl ++
    " -- if you are trying to link to a local directory, use mise plugins link instead"

/-- The body of `Plugin::install` (lines 222–252) after `get_repo_url`
has produced `repository`: split off any `#ref` fragment; uninstall
first when already installed; then reject a clone target matching
`^[/~]`; then clone, check out the fragment ref when present, read the
short sha and finish with `{repo_url}#{sha}`. -/
def install_resolved (e : Env) (repository : String) : Out Unit × List Ev :=
  let repoUrl := (split_url_and_ref repository).1
  let repoRef := (split_url_and_ref repository).2
  let pre := if is_installed e then uninstall e else (Except.ok (), [])
  match pre.1 with
  | .error m => (.err m, pre.2)
  | .ok _ =>
    if startsWithLocal repoUrl then
      (.err (invalidRepoUrlMsg repoUrl), pre.2)
    else
      let evs2 := pre.2 ++ [Ev.setMessage ("cloning " ++ repoUrl), Ev.gitClone repoUrl]
      match e.cloneRes repoUrl with
      | .error m => (.err m, evs2)
      | .ok _ =>
        let post :=
          match repoRef with
          | some r =>
            (e.updateRes (some r),
              evs2 ++ [Ev.setMessage ("checking out " ++ r), Ev.gitUpdate (some r)])
          | none => (Except.ok (), evs2)
        match post.1 with
        | .error m => (.err m, post.2)
        | .ok _ =>
          match e.shaShort with
          | .error m => (.err m, post.2)
          | .ok sha => (.ok (), post.2 ++ [Ev.finishWithMessage (repoUrl ++ "#" ++ sha)])

/-- `Plugin::install`: resolve the source with `get_repo_url`, then run
the installation body. -/
def install (e : Env) (fuel : Nat) : Out Unit × List Ev :=
  match get_repo_url e fuel with
  | .ok repository => install_resolved e repository
  | .err m => (.err m, [])
  | .panicked => (.panicked, [])
  | .diverge => (.diverge, [])

/-- `Plugin::ensure_installed` (lines 161–168): when the path does not
exist, resolve the URL and clone it directly (the whole resolved string,
fragment included; no progress reporting, no local-path check); when the
path exists, do nothing. -/
def ensure_installed (e : Env) (fuel : Nat) : Out Unit × List Ev :=
  if !e.existsPath then
    match get_repo_url e fuel with
    | .ok url =>
      match e.cloneRes url with
      | .ok _ => (.ok (), [Ev.gitClone url])
      | .error m => (.err m, [Ev.gitClone url])
    | .err m => (.err m, [])
    | .panicked => (.panicked, [])
    | .diverge => (.diverge, [])
  else (.ok (), [])

/-- The plugin kinds of `PluginType` relevant here (`matches!(t,
PluginType::Vfox)`); `asdf` stands for any other kind. -/
inductive PluginType where
  | vfox
  | asdf
deriving DecidableEq, Repr

/-- `VfoxPlugin::list` (lines 51–64): scan the installed-plugins index
(entries are `(directory file name, kind)` pairs), keep the entries of
kind `Vfox`, take each entry's name, and drop names in
`settings.disable_tools`. -/
def list (installed : List (String × PluginType)) (disabled : List String) : List String :=
  ((installed.filter (fun p => p.2 == PluginType.vfox)).map (fun p => p.1)).filter
    (fun n => !(disabled.contains n))

end VfoxPlugin

/-- Recogniser for the terminal progress-sink call `finish_with_message`. -/
def isFinish : Ev → Bool
  | Ev.finishWithMessage _ => true
  | _ => false

/-- Number of `finish_with_message` calls in a trace. -/
def countFinish (evs : List Ev) : Nat := evs.countP isFinish

/-- A freshly-constructed, not-yet-installed plugin named `p` whose external
collaborators all succeed. -/
def envBase : Env where
  name := "p"
  existsPath := false
  isSymlink := false
  isRepo := true
  remoteUrl := none
  repoUrlField := none
  removeAllRes := Except.ok ()
  cloneRes := fun _ => Except.ok ()
  updateRes := fun _ => Except.ok ()
  shaShort := Except.ok "abc1234"
  abbrevRef := Except.ok "main"

/-- The same plugin with its install path present on disk. -/
def envInstalled : Env := { envBase with existsPath := true }

/-- An absent plugin whose repository remote is a plain github URL. -/
def envOk : Env := { envBase with remoteUrl := some "https://github.com/a/b" }

/-- An installed plugin whose install path is a symlink. -/
def envSymlink : Env := { envInstalled with isSymlink := true }

/-- An absent plugin whose remote URL carries a `#v1` ref fragment. -/
def envFrag : Env := { envBase with remoteUrl := some "https://github.com/a/b#v1" }

/-- An absent plugin whose git revision queries would error if consulted. -/
def envBroken : Env :=
  { envBase with shaShort := Except.error "boom", abbrevRef := Except.error "boom" }

/-! ## Helper lemmas -/

open VfoxPlugin

theorem hasSchemeChars_github (l : List Char) :
    hasSchemeChars ("https://github.com/".data ++ l) = true := rfl

theorem hasScheme_github (u r : String) :
    hasScheme ("https://github.com/" ++ u ++ "/" ++ r) = true := by
  unfold hasScheme
  rw [String.data_append, String.data_append, String.data_append,
    List.append_assoc, List.append_assoc]
  exact hasSchemeChars_github _

theorem urlParse_github (u r : String) :
    urlParse ("https://github.com/" ++ u ++ "/" ++ r)
      = Except.ok ("https://github.com/" ++ u ++ "/" ++ r) := by
  unfold urlParse
  rw [hasScheme_github]
  simp

theorem vfox_to_url_fuel_succ (reg : List (String × String)) :
    ∀ (f : Nat) (name : String), vfox_to_url reg f name ≠ Out.diverge →
      vfox_to_url reg (f + 1) name = vfox_to_url reg f name := by
  intro f
  induction f with
  | zero => intro name h; exact absurd rfl h
  | succ f ih =>
    intro name h
    cases hreg : regLookup reg (trim_start_matches_vfox name) with
    | none => simp [vfox_to_url, hreg]
    | some full =>
      cases hsp : split_once ':' full with
      | none => simp [vfox_to_url, hreg, hsp]
      | some p =>
        obtain ⟨kind, payload⟩ := p
        have h' : vfox_to_url reg f payload ≠ Out.diverge := by
          intro hdiv
          apply h
          simpa [vfox_to_url, hreg, hsp] using hdiv
        simpa [vfox_to_url, hreg, hsp] using ih payload h'

theorem vfox_to_url_fuel_stable (reg : List (String × String)) (f g : Nat) (name : String)
    (hf : f ≤ g) (h : vfox_to_url reg f name ≠ Out.diverge) :
    vfox_to_url reg g name = vfox_to_url reg f name := by
  induction g with
  | zero =>
    have hz : f = 0 := Nat.le_zero.mp hf
    subst hz; rfl
  | succ g ih =>
    rcases Nat.eq_or_lt_of_le hf with heq | hlt
    · subst heq; rfl
    · have hg := ih (Nat.le_of_lt_succ hlt)
      rw [vfox_to_url_fuel_succ reg g name (hg ▸ h), hg]

theorem countFinish_uninstall (e : Env) : countFinish (uninstall e).2 = 0 := by
  cases hi : e.existsPath <;> cases hr : e.removeAllRes <;>
    simp [uninstall, is_installed, hi, hr, countFinish, isFinish,
      List.countP_cons, List.countP_nil]

theorem uninstall_no_clone (e : Env) (u : String) : Ev.gitClone u ∉ (uninstall e).2 := by
  cases hi : e.existsPath <;> cases hr : e.removeAllRes <;>
    simp [uninstall, is_installed, hi, hr]

theorem install_resolved_ok_shape (e : Env) (repository : String)
    (h : (install_resolved e repository).1 = Out.ok ()) :
    countFinish (install_resolved e repository).2 = 1 ∧
    ∃ m, ((install_resolved e repository).2).getLast? = some (Ev.finishWithMessage m) := by
  rcases hsp : split_url_and_ref repository with ⟨repoUrl, oref⟩
  cases hi : e.existsPath <;>
    cases hr : e.removeAllRes <;>
      cases hl : startsWithLocal repoUrl <;>
        cases hc : e.cloneRes repoUrl <;>
          cases hsha : e.shaShort <;>
            cases hup : e.updateRes oref <;>
              cases oref <;>
                simp_all [install_resolved, uninstall, is_installed, countFinish, isFinish,
                  List.countP_cons, List.countP_nil, List.countP_append,
                  List.getLast?_cons_cons, List.getLast?_singleton]

/-! ## Claims -/

/-- C1 (amended): for every resolved clone target beginning with `/` or `~`,
`install` fails with the local-path `ValidationError` and never attempts a
clone; but the check runs only after the idempotent-overwrite uninstall
step, so while an absent plugin's install produces no effect at all, an
already-installed plugin's install path has already been uninstalled (its
removal is in the trace) by the time the rejection fires. -/
theorem C1_local_target_rejected (e : Env) (repository : String)
    (hlocal : startsWithLocal (split_url_and_ref repository).1 = true) :
    (install_resolved e repository).1 ≠ Out.ok () ∧
    (∀ u, Ev.gitClone u ∉ (install_resolved e repository).2) ∧
    (e.existsPath = false → install_resolved e repository
      = (Out.err (invalidRepoUrlMsg (split_url_and_ref repository).1), [])) ∧
    (e.existsPath = true → (install_resolved e repository).2 = (uninstall e).2 ∧
      ((uninstall e).1 = Except.ok () → (install_resolved e repository).1
        = Out.err (invalidRepoUrlMsg (split_url_and_ref repository).1))) := by
  rcases hsp : split_url_and_ref repository with ⟨repoUrl, oref⟩
  cases hi : e.existsPath <;> cases hr : e.removeAllRes <;>
    simp_all [install_resolved, uninstall, is_installed]

/-- C1 counterexample: with the already-installed plugin `p` and the
resolved clone target `/x` (which matches the rejected `^[/~]` pattern),
install raises the validation error, yet its trace contains the removal of
the install path: the filesystem was touched (the uninstall ran) before
the rejection, contradicting the claim's "no uninstall" ordering. -/
theorem C1_counterexample :
    startsWithLocal (split_url_and_ref "/x").1 = true ∧
    (install_resolved envInstalled "/x").1 = Out.err (invalidRepoUrlMsg "/x") ∧
    Ev.removeAll (pluginPath "p") ∈ (install_resolved envInstalled "/x").2 := by
  refine ⟨rfl, rfl, ?_⟩
  rw [show (install_resolved envInstalled "/x").2
    = [Ev.setMessage "uninstalling", Ev.setMessage ("removing " ++ pluginPath "p"),
      Ev.removeAll (pluginPath "p")] from rfl]
  simp

/-- C1 witness: the amended claim at the absent plugin `p` and target `/x`. -/
theorem C1_witness :
    (install_resolved envBase "/x").1 ≠ Out.ok () ∧
    Ev.gitClone "/x" ∉ (install_resolved envBase "/x").2 ∧
    install_resolved envBase "/x" = (Out.err (invalidRepoUrlMsg "/x"), []) := by
  obtain ⟨h1, h2, h3, _⟩ := C1_local_target_rejected envBase "/x" rfl
  exact ⟨h1, h2 "/x", h3 rfl⟩

/-- C2: for every name matching the `owner/repo` shorthand (two non-empty
slash-separated segments), with no configured remote and no registry alias
for the name after stripping the `vfox-` prefix, `get_repo_url` resolves to
`https://github.com/owner/repo`. -/
theorem C2_shorthand_resolution (e : Env) (user repo : String) (fuel : Nat)
    (hremote : e.remoteUrl = none)
    (hshort : shorthandCaps e.name = some (user, repo))
    (halias : regLookup REGISTRY_VFOX (trim_start_matches_vfox e.name) = none)
    (hfuel : 1 ≤ fuel) :
    get_repo_url e fuel = Out.ok ("https://github.com/" ++ user ++ "/" ++ repo) := by
  obtain ⟨f, rfl⟩ : ∃ f, fuel = f + 1 :=
    ⟨fuel - 1, (Nat.succ_pred_eq_of_pos hfuel).symm⟩
  unfold get_repo_url
  rw [hremote]
  simp [vfox_to_url, halias, hshort, urlParse_github]

/-- C2 witness: the name `SolitudeSF/mise` resolves to its github URL. -/
theorem C2_witness :
    get_repo_url
      { name := "SolitudeSF/mise", existsPath := false, isSymlink := false, isRepo := false,
        remoteUrl := none, repoUrlField := none, removeAllRes := Except.ok (),
        cloneRes := fun _ => Except.ok (), updateRes := fun _ => Except.ok (),
        shaShort := Except.ok "abc1234", abbrevRef := Except.ok "main" } 1
      = Out.ok ("https://github.com/" ++ "SolitudeSF" ++ "/" ++ "mise") :=
  C2_shorthand_resolution _ "SolitudeSF" "mise" 1 rfl rfl rfl (Nat.le_refl 1)

/-- C3: every alias of the (spec-modelled) compiled-in registry resolves
without divergence at any fuel bound of at least 2, to a URL obtained from
the alias's payload (the part of the target-spec after the first `:`)
either by the `owner/repo` shorthand step or by direct URL parsing. -/
theorem C3_registry_alias_resolution (p : String × String) (hp : p ∈ REGISTRY_VFOX)
    (fuel : Nat) (hfuel : 2 ≤ fuel) :
    ∃ kind payload url,
      split_once ':' p.2 = some (kind, payload) ∧
      vfox_to_url REGISTRY_VFOX fuel p.1 = Out.ok url ∧
      ((∃ u r, shorthandCaps payload = some (u, r) ∧
          url = "https://github.com/" ++ u ++ "/" ++ r) ∨
        urlParse payload = Except.ok url) := by
  have hp' : p = ("bun", "vfox:version-fox/vfox-bun") := by
    simpa [REGISTRY_VFOX] using hp
  subst hp'
  have e2 : vfox_to_url REGISTRY_VFOX 2 "bun"
      = Out.ok "https://github.com/version-fox/vfox-bun" := rfl
  have ne : vfox_to_url REGISTRY_VFOX 2 "bun" ≠ Out.diverge := by
    rw [e2]; intro h; cases h
  refine ⟨"vfox", "version-fox/vfox-bun", "https://github.com/version-fox/vfox-bun",
    rfl, ?_, Or.inl ⟨"version-fox", "vfox-bun", rfl, rfl⟩⟩
  rw [vfox_to_url_fuel_stable REGISTRY_VFOX 2 fuel "bun" hfuel ne, e2]

/-- C3 witness: the `bun` alias at fuel 2. -/
theorem C3_witness :
    ∃ kind payload url,
      split_once ':' ("bun", "vfox:version-fox/vfox-bun").2 = some (kind, payload) ∧
      vfox_to_url REGISTRY_VFOX 2 ("bun", "vfox:version-fox/vfox-bun").1 = Out.ok url ∧
      ((∃ u r, shorthandCaps payload = some (u, r) ∧
          url = "https://github.com/" ++ u ++ "/" ++ r) ∨
        urlParse payload = Except.ok url) :=
  C3_registry_alias_resolution ("bun", "vfox:version-fox/vfox-bun")
    (by simp [REGISTRY_VFOX]) 2 (Nat.le_refl 2)

/-- C4: update on a plugin whose install path is a symlink, or is not a
recognised git working copy, returns success and emits exactly one warning
event: no fetch, no checkout, no progress-sink call, no mutation. -/
theorem C4_update_refusal (e : Env) (gitref : Option String)
    (h : e.isSymlink = true ∨ e.isRepo = false) :
    (update e gitref).1 = Except.ok () ∧ ∃ m, (update e gitref).2 = [Ev.warn m] := by
  rcases h with h | h
  · exact ⟨by simp [update, h],
      "plugin:" ++ e.name ++ " is a symlink, not updating", by simp [update, h]⟩
  · cases hs : e.isSymlink
    · exact ⟨by simp [update, h, hs],
        "plugin:" ++ e.name ++ " is not a git repository, not updating",
        by simp [update, h, hs]⟩
    · exact ⟨by simp [update, hs],
        "plugin:" ++ e.name ++ " is a symlink, not updating", by simp [update, hs]⟩

/-- C4 witness: update on the symlinked plugin. -/
theorem C4_witness :
    (update envSymlink none).1 = Except.ok () ∧
    ∃ m, (update envSymlink none).2 = [Ev.warn m] :=
  C4_update_refusal envSymlink none (Or.inl rfl)

/-- C5: uninstall of an absent plugin succeeds with no side effect at all
(no removal, no progress message); uninstall of a present plugin removes
the install path recursively and succeeds when removal succeeds. -/
theorem C5_uninstall_idempotent (e : Env) :
    (e.existsPath = false → uninstall e = (Except.ok (), [])) ∧
    (e.existsPath = true →
      Ev.removeAll (pluginPath e.name) ∈ (uninstall e).2 ∧
      (e.removeAllRes = Except.ok () → (uninstall e).1 = Except.ok ())) := by
  constructor
  · intro h; simp [uninstall, is_installed, h]
  · intro h
    constructor
    · cases hr : e.removeAllRes <;> simp [uninstall, is_installed, h, hr]
    · intro hok; simp [uninstall, is_installed, h, hok]

/-- C5 witness: the absent and the installed plugin `p`. -/
theorem C5_witness :
    uninstall envBase = (Except.ok (), []) ∧
    Ev.removeAll (pluginPath "p") ∈ (uninstall envInstalled).2 ∧
    (uninstall envInstalled).1 = Except.ok () := by
  obtain ⟨ha, _⟩ := C5_uninstall_idempotent envBase
  obtain ⟨_, hb⟩ := C5_uninstall_idempotent envInstalled
  obtain ⟨h1, h2⟩ := hb rfl
  exact ⟨ha rfl, h1, h2 rfl⟩

/-- C6 (amended): install calls `finish_with_message` exactly once, as the
terminal event, on every successful path; update does the same on its
updating path, but makes no progress-sink call at all on its symlink and
non-repository refusal paths (which still return success); uninstall never
calls `finish_with_message` on any path. -/
theorem C6_progress_protocol (e : Env) (fuel : Nat) (gitref : Option String) :
    ((install e fuel).1 = Out.ok () →
      countFinish (install e fuel).2 = 1 ∧
      ∃ m, ((install e fuel).2).getLast? = some (Ev.finishWithMessage m)) ∧
    (e.isSymlink = false → e.isRepo = true → (update e gitref).1 = Except.ok () →
      countFinish (update e gitref).2 = 1 ∧
      ∃ m, ((update e gitref).2).getLast? = some (Ev.finishWithMessage m)) ∧
    ((e.isSymlink = true ∨ e.isRepo = false) → countFinish (update e gitref).2 = 0) ∧
    countFinish (uninstall e).2 = 0 := by
  refine ⟨?_, ?_, ?_, countFinish_uninstall e⟩
  · intro h
    cases hres : get_repo_url e fuel with
    | ok repository =>
      have h' : (install_resolved e repository).1 = Out.ok () := by
        simpa [install, hres] using h
      have hs := install_resolved_ok_shape e repository h'
      simpa [install, hres] using hs
    | err m => simp [install, hres] at h
    | panicked => simp [install, hres] at h
    | diverge => simp [install, hres] at h
  · intro hs hr hok
    cases hup : e.updateRes gitref with
    | error m => simp [update, hs, hr, hup] at hok
    | ok v =>
      cases hsha : e.shaShort with
      | error m => simp [update, hs, hr, hup, hsha] at hok
      | ok sha =>
        constructor
        · simp [update, hs, hr, hup, hsha, countFinish, isFinish,
            List.countP_cons, List.countP_nil]
        · exact ⟨(get_remote_url e).getD "" ++ "#" ++ sha,
            by simp [update, hs, hr, hup, hsha, List.getLast?_cons_cons,
              List.getLast?_singleton]⟩
  · intro hrefuse
    rcases hrefuse with hs | hr
    · simp [update, hs, countFinish, isFinish, List.countP_cons, List.countP_nil]
    · cases hs : e.isSymlink <;>
        simp [update, hs, hr, countFinish, isFinish, List.countP_cons, List.countP_nil]

/-- C6 counterexample: uninstalling the installed plugin `p` succeeds on a
path that emits progress messages yet contains zero `finish_with_message`
calls — a successful lifecycle path with no terminal finish, contradicting
the claim that every success path finishes exactly once. -/
theorem C6_counterexample :
    (uninstall envInstalled).1 = Except.ok () ∧
    (uninstall envInstalled).2 ≠ [] ∧
    countFinish (uninstall envInstalled).2 = 0 := by
  refine ⟨rfl, ?_, rfl⟩
  rw [show (uninstall envInstalled).2
    = [Ev.setMessage "uninstalling", Ev.setMessage ("removing " ++ pluginPath "p"),
      Ev.removeAll (pluginPath "p")] from rfl]
  simp

/-- C6 witness: a successful install, a successful update, a symlink-refused
update and an absent-plugin uninstall, at concrete environments. -/
theorem C6_witness :
    (countFinish (install envOk 1).2 = 1 ∧
      ∃ m, ((install envOk 1).2).getLast? = some (Ev.finishWithMessage m)) ∧
    (countFinish (update envInstalled none).2 = 1 ∧
      ∃ m, ((update envInstalled none).2).getLast? = some (Ev.finishWithMessage m)) ∧
    countFinish (update envSymlink none).2 = 0 ∧
    countFinish (uninstall envBase).2 = 0 :=
  ⟨(C6_progress_protocol envOk 1 none).1 rfl,
    (C6_progress_protocol envInstalled 1 none).2.1 rfl rfl rfl,
    (C6_progress_protocol envSymlink 1 none).2.2.1 (Or.inl rfl),
    (C6_progress_protocol envBase 1 none).2.2.2⟩

/-- C7 (amended): for an installed plugin, `ensure_installed` succeeds with
no repository operation; for an absent plugin it resolves the URL and
clones the whole resolved string directly — with no ref-fragment
splitting, no local-path rejection check and no progress reporting, unlike
the Install transition. -/
theorem C7_ensure_installed_guard (e : Env) (fuel : Nat) (url : String) :
    (e.existsPath = true → ensure_installed e fuel = (Out.ok (), [])) ∧
    (e.existsPath = false → get_repo_url e fuel = Out.ok url →
      (ensure_installed e fuel).2 = [Ev.gitClone url] ∧
      (e.cloneRes url = Except.ok () → (ensure_installed e fuel).1 = Out.ok ())) := by
  constructor
  · intro h; simp [ensure_installed, h]
  · intro h hres
    cases hc : e.cloneRes url with
    | error m => simp [ensure_installed, h, hres, hc]
    | ok v => simp [ensure_installed, h, hres, hc]

/-- C7 counterexample: for the absent plugin whose source resolves to
`https://github.com/a/b#v1`, `ensure_installed` clones the raw URL with
its `#v1` fragment and performs no checkout and no progress call, while
`install` on the same plugin splits the fragment, clones
`https://github.com/a/b`, checks out `v1` and reports progress — so
`ensure_installed` does not perform the Install transition. -/
theorem C7_counterexample :
    envFrag.existsPath = false ∧
    (ensure_installed envFrag 1).2 = [Ev.gitClone "https://github.com/a/b#v1"] ∧
    (install envFrag 1).2
      = [Ev.setMessage "cloning https://github.com/a/b", Ev.gitClone "https://github.com/a/b",
        Ev.setMessage "checking out v1", Ev.gitUpdate (some "v1"),
        Ev.finishWithMessage "https://github.com/a/b#abc1234"] ∧
    ensure_installed envFrag 1 ≠ install envFrag 1 := by
  refine ⟨rfl, rfl, rfl, ?_⟩
  intro h
  have h2 := congrArg Prod.snd h
  rw [show (ensure_installed envFrag 1).2 = [Ev.gitClone "https://github.com/a/b#v1"] from rfl,
    show (install envFrag 1).2
      = [Ev.setMessage "cloning https://github.com/a/b", Ev.gitClone "https://github.com/a/b",
        Ev.setMessage "checking out v1", Ev.gitUpdate (some "v1"),
        Ev.finishWithMessage "https://github.com/a/b#abc1234"] from rfl] at h2
  simp at h2

/-- C7 witness: an installed plugin is left untouched; an absent plugin
with a plain resolved URL is cloned directly. -/
theorem C7_witness :
    ensure_installed envInstalled 1 = (Out.ok (), []) ∧
    (ensure_installed envOk 1).2 = [Ev.gitClone "https://github.com/a/b"] ∧
    (ensure_installed envOk 1).1 = Out.ok () := by
  obtain ⟨he, _⟩ := C7_ensure_installed_guard envInstalled 1 ""
  obtain ⟨_, hc⟩ := C7_ensure_installed_guard envOk 1 "https://github.com/a/b"
  obtain ⟨h1, h2⟩ := hc rfl rfl
  exact ⟨he rfl, h1, h2 rfl⟩

/-- C8: for every installed-plugins index and disabled-tools set, `list`
returns exactly the names of the index entries whose kind is `Vfox` and
whose name is not disabled — entries of another kind and disabled names
are excluded. -/
theorem C8_catalog_filter (installed : List (String × PluginType)) (disabled : List String) :
    VfoxPlugin.list installed disabled
      = (installed.filter
          (fun p => p.2 == PluginType.vfox && !(disabled.contains p.1))).map Prod.fst := by
  unfold VfoxPlugin.list
  have hf : (fun (a : String × PluginType) =>
      ((fun n => !disabled.contains n) ∘ fun p => p.1) a && a.2 == PluginType.vfox)
      = (fun p : String × PluginType => p.2 == PluginType.vfox && !(disabled.contains p.1)) := by
    funext a
    simp [Function.comp, Bool.and_comm]
  rw [List.filter_map, List.filter_filter, hf]

/-- C9: on a plugin whose install path does not exist, `current_sha_short`
and `current_abbrev_ref` both return `Ok(None)` without consulting (and in
particular without erroring through) the repository. -/
theorem C9_absent_plugin_queries (e : Env) (h : e.existsPath = false) :
    current_sha_short e = Except.ok none ∧ current_abbrev_ref e = Except.ok none :=
  ⟨by simp [current_sha_short, is_installed, h],
    by simp [current_abbrev_ref, is_installed, h]⟩

/-- C9 witness: the absent plugin whose repository queries would error. -/
theorem C9_witness :
    current_sha_short envBroken = Except.ok none ∧
    current_abbrev_ref envBroken = Except.ok none :=
  C9_absent_plugin_queries envBroken rfl

/-- C10: every payload of the (spec-modelled) registry contains the `:`
separator the `unwrap` relies on, and resolution of every registry alias
never panics at any fuel bound of at least 2; while a hypothetical
registry entry whose payload lacks `:` makes the very same splitting step
panic. -/
theorem C10_payload_colon_assumption :
    (∀ p ∈ REGISTRY_VFOX, (split_once ':' p.2).isSome = true ∧
      ∀ fuel, 2 ≤ fuel → vfox_to_url REGISTRY_VFOX fuel p.1 ≠ Out.panicked) ∧
    vfox_to_url [("bad", "nocolon")] 1 "bad" = Out.panicked := by
  constructor
  · intro p hp
    have hp' : p = ("bun", "vfox:version-fox/vfox-bun") := by
      simpa [REGISTRY_VFOX] using hp
    subst hp'
    refine ⟨rfl, ?_⟩
    intro fuel hfuel h
    have e2 : vfox_to_url REGISTRY_VFOX 2 "bun"
        = Out.ok "https://github.com/version-fox/vfox-bun" := rfl
    have ne : vfox_to_url REGISTRY_VFOX 2 "bun" ≠ Out.diverge := by
      rw [e2]; intro h'; cases h'
    rw [vfox_to_url_fuel_stable REGISTRY_VFOX 2 fuel "bun" hfuel ne, e2] at h
    cases h
  · rfl

/-- C10 witness: the `bun` alias at fuel 2, and the panicking registry. -/
theorem C10_witness :
    ((split_once ':' ("bun", "vfox:version-fox/vfox-bun").2).isSome = true ∧
      vfox_to_url REGISTRY_VFOX 2 ("bun", "vfox:version-fox/vfox-bun").1 ≠ Out.panicked) ∧
    vfox_to_url [("bad", "nocolon")] 1 "bad" = Out.panicked := by
  obtain ⟨h1, h2⟩ := C10_payload_colon_assumption
  obtain ⟨ha, hb⟩ := h1 ("bun", "vfox:version-fox/vfox-bun") (by simp [REGISTRY_VFOX])
  exact ⟨⟨ha, hb 2 (Nat.le_refl 2)⟩, h2⟩

end Mise
